import Mathlib

/-!
Verification of the FunSearch orchestration core
(llm4ad/method/funsearch/funsearch.py).

The embedding models the sampler-worker iteration body
(FunSearch._sample_evaluate_register), the startup sequence (FunSearch.run),
and the shared budget counter, against abstract external collaborators
(sampling backend, evaluator, converters, population store, profiler).
-/

/-- Python-level exception values that can reach the worker loop's handlers:
KeyboardInterrupt (caught by its own clause), ZeroDivisionError (from the
per-sample average-time division), RuntimeError (raised by run() on a null
seed score) and any other Exception. -/
inductive PyErr where
  | keyboardInterrupt
  | zeroDivisionError
  | runtimeError
  | other
deriving DecidableEq

/-- A prompt handed out by ProgramsDatabase.get_prompt: the prompt code and
the island it was drawn from. -/
structure Prompt where
  code : String
  island_id : Option Nat
deriving DecidableEq

/-- One call to ProgramsDatabase.register_function, recording the arguments
the orchestrator passed: the function, the island id, and the score argument
exactly as passed (its static type in the source is Optional). -/
structure RegEntry where
  function : String
  island_id : Option Nat
  score : Option Int
deriving DecidableEq

/-- One call to profiler.register_function, recording the annotations the
worker attached to the Function just before the call: score, sample_time
(the per-sample average sampling time) and evaluate_time. -/
structure FunRecord where
  function : String
  score : Option Int
  sample_time : Nat
  evaluate_time : Nat
deriving DecidableEq

/-- The mutable shared state the worker iteration touches: the budget counter
self._tot_sample_nums, the sequence of population-store registrations, and the
sequence of reports received by the profiler. -/
structure SearchState where
  tot_sample_nums : Nat
  db : List RegEntry
  profiler_log : List FunRecord
deriving DecidableEq

/-- The configuration surface of the FunSearch constructor that the claims
mention.  profiler_on models whether a profiler instance was supplied. -/
structure Cfg where
  num_samplers : Nat
  samples_per_prompt : Nat
  max_sample_nums : Option Nat
  resume_mode : Bool
  debug_mode : Bool
  profiler_on : Bool

/-- The external collaborators one worker iteration calls, with program and
function texts as strings.  draw_samples may raise (its failures propagate to
the worker iteration); sample_to_program and program_to_function return none
on conversion failure rather than raising; the evaluator returns a nullable
score and a duration and never raises (SecureEvaluator catches internally);
profiler_register is an external telemetry call and so may raise.
sample_to_program has the template program already applied. -/
structure Env where
  get_prompt : Prompt
  draw_samples : List String → Except PyErr (List String)
  draw_duration : Nat
  sample_to_program : String → Option String
  evaluate : String → Option Int × Nat
  program_to_function : String → Option String
  profiler_register : FunRecord → Except PyErr Unit
  evaluate_seed : Option Int × Nat
  function_to_evolve : String

/-- Division as Python performs it: raises ZeroDivisionError on a zero
divisor instead of returning a default value. -/
def pydiv (a b : Nat) : Except PyErr Nat :=
  if b = 0 then .error .zeroDivisionError else .ok (a / b)

/-- The programs_to_be_eval list: each sampled candidate text is converted
with SampleTrimmer.sample_to_program and kept only when conversion succeeds
(funsearch.py lines 136-141). -/
def submittedPrograms (env : Env) (sampled_funcs : List String) : List String :=
  sampled_funcs.filterMap env.sample_to_program

/-- Submitting every program to the evaluation executor in list order and
collecting each future's result in the same order (funsearch.py lines
144-149): the collected list is the evaluations of the submitted programs,
index for index. -/
def evalBatch (env : Env) (programs : List String) : List (Option Int × Nat) :=
  programs.map env.evaluate

/-- The zip that drives the registration loop (funsearch.py line 154):
programs_to_be_eval zipped with the scores list and the times list that were
projected out of the collected results. -/
def batchTriples (env : Env) (programs : List String) :
    List (String × Option Int × Nat) :=
  programs.zip (((evalBatch env programs).map Prod.fst).zip
    ((evalBatch env programs).map Prod.snd))

/-- The registration loop of funsearch.py lines 154-176: for each
(program, score, eval_time) triple in order, increment tot_sample_nums,
convert the program back to a Function (skipping the rest of the body when
conversion fails), register to the population store when the score is
non-null, and report to the profiler when one is configured.  The external
profiler call may raise, in which case the exception carries the state
mutated so far. -/
def registerLoop (env : Env) (cfg : Cfg) (island_id : Option Nat)
    (avg_time : Nat) :
    List (String × Option Int × Nat) → SearchState →
    Except (PyErr × SearchState) SearchState
  | [], s => .ok s
  | (program, score, eval_time) :: rest, s =>
    let s1 : SearchState := { s with tot_sample_nums := s.tot_sample_nums + 1 }
    match env.program_to_function program with
    | none => registerLoop env cfg island_id avg_time rest s1
    | some function =>
      let s2 : SearchState :=
        if score.isSome then
          { s1 with db := s1.db ++ [⟨function, island_id, score⟩] }
        else s1
      if cfg.profiler_on then
        let fr : FunRecord := ⟨function, score, avg_time, eval_time⟩
        match env.profiler_register fr with
        | .error e => .error (e, s2)
        | .ok _ =>
          registerLoop env cfg island_id avg_time rest
            { s2 with profiler_log := s2.profiler_log ++ [fr] }
      else registerLoop env cfg island_id avg_time rest s2

/-- One pass through the try-block of FunSearch._sample_evaluate_register
(funsearch.py lines 124-176): fetch a prompt, replicate its code
samples_per_prompt times, draw samples, compute the per-sample average
sampling time (a Python division that raises on an empty batch), convert
candidates to programs, evaluate the batch in submission order, and run the
registration loop.  An exception carries the state as mutated so far. -/
def iterationBody (env : Env) (cfg : Cfg) (s : SearchState) :
    Except (PyErr × SearchState) SearchState :=
  let prompt := env.get_prompt
  let prompt_contents := List.replicate cfg.samples_per_prompt prompt.code
  match env.draw_samples prompt_contents with
  | .error e => .error (e, s)
  | .ok sampled_funcs =>
    match pydiv env.draw_duration sampled_funcs.length with
    | .error e => .error (e, s)
    | .ok avg_time_for_each_sample =>
      let programs_to_be_eval := submittedPrograms env sampled_funcs
      registerLoop env cfg prompt.island_id avg_time_for_each_sample
        (batchTriples env programs_to_be_eval) s

/-- The outcome of one loop round after the except-clauses of funsearch.py
lines 177-183: continue with the next iteration, exit the process (debug
mode: traceback.print_exc() then exit()), or break out of the loop
(KeyboardInterrupt). -/
inductive IterOutcome where
  | continued (s : SearchState)
  | exited (s : SearchState)
  | broke (s : SearchState)
deriving DecidableEq

/-- The exception handling of funsearch.py lines 177-183 applied to the
result of the try-block: KeyboardInterrupt breaks the loop; any other
exception exits the process in debug mode and is swallowed otherwise. -/
def handleIteration (debug_mode : Bool) :
    Except (PyErr × SearchState) SearchState → IterOutcome
  | .ok s => .continued s
  | .error (.keyboardInterrupt, s) => .broke s
  | .error (.zeroDivisionError, s) =>
      if debug_mode then .exited s else .continued s
  | .error (.runtimeError, s) =>
      if debug_mode then .exited s else .continued s
  | .error (.other, s) =>
      if debug_mode then .exited s else .continued s

/-- One full worker iteration: the try-block followed by its exception
handlers. -/
def workerIteration (env : Env) (cfg : Cfg) (s : SearchState) : IterOutcome :=
  handleIteration cfg.debug_mode (iterationBody env cfg s)

/-- Observable events of FunSearch.run in program order: the synchronous seed
evaluation, a call to ProgramsDatabase.register_function, a seed report to the
profiler, the start of a sampler thread, and (abstractly) any action a started
worker thread performs afterwards. -/
inductive RunEvent where
  | evalSeed
  | registerSeed (function : String) (island_id : Option Nat) (score : Option Int)
  | profileSeed (function : String) (score : Option Int) (eval_time : Nat)
  | startWorker (i : Nat)
  | workerAct (i : Nat)
deriving DecidableEq

/-- True exactly on registerSeed events. -/
def RunEvent.isRegisterSeed : RunEvent → Bool
  | .registerSeed _ _ _ => true
  | _ => false

/-- True exactly on profileSeed events. -/
def RunEvent.isProfileSeed : RunEvent → Bool
  | .profileSeed _ _ _ => true
  | _ => false

/-- True exactly on startWorker events. -/
def RunEvent.isStartWorker : RunEvent → Bool
  | .startWorker _ => true
  | _ => false

/-- True exactly on workerAct events. -/
def RunEvent.isWorkerAct : RunEvent → Bool
  | .workerAct _ => true
  | _ => false

/-- The event trace of FunSearch.run (funsearch.py lines 191-211).  When not
resuming, run evaluates the template program synchronously, raises
RuntimeError when its score is None, otherwise registers the seed function
with the score just obtained, reports it to the profiler when one is
configured, and only then starts the sampler threads.  Everything the started
worker threads do is abstracted as the trailing workerTrace.  An exception
carries the events emitted before the raise. -/
def run (cfg : Cfg) (env : Env) (workerTrace : List RunEvent) :
    Except (PyErr × List RunEvent) (List RunEvent) :=
  if cfg.resume_mode then
    .ok ((List.range cfg.num_samplers).map RunEvent.startWorker ++ workerTrace)
  else
    match env.evaluate_seed with
    | (none, _) => .error (.runtimeError, [RunEvent.evalSeed])
    | (some sc, eval_time) =>
      .ok ([RunEvent.evalSeed,
            RunEvent.registerSeed env.function_to_evolve none (some sc)]
           ++ (if cfg.profiler_on then
                 [RunEvent.profileSeed env.function_to_evolve (some sc) eval_time]
               else [])
           ++ (List.range cfg.num_samplers).map RunEvent.startWorker
           ++ workerTrace)

/-- The state carried by an iteration result, whether it finished normally or
raised (the raise keeps all mutations performed before it). -/
def stateOf : Except (PyErr × SearchState) SearchState → SearchState
  | .ok s => s
  | .error (_, s) => s

/-- A profiler that never raises. -/
def cleanProf (env : Env) : Prop :=
  ∀ fr, env.profiler_register fr = .ok ()

/-- The population-store registrations the registration loop produces from a
triple list: one entry per triple whose program converts back to a Function
and whose score is non-null. -/
def regsOf (env : Env) (island_id : Option Nat) :
    List (String × Option Int × Nat) → List RegEntry :=
  List.filterMap fun pst =>
    match env.program_to_function pst.1 with
    | none => none
    | some function =>
      if pst.2.1.isSome then some ⟨function, island_id, pst.2.1⟩ else none

/-- The profiler reports the registration loop produces from a triple list:
one report per triple whose program converts back to a Function, regardless
of its score. -/
def repsOf (env : Env) (avg_time : Nat) :
    List (String × Option Int × Nat) → List FunRecord :=
  List.filterMap fun pst =>
    (env.program_to_function pst.1).map fun function =>
      ⟨function, pst.2.1, avg_time, pst.2.2⟩

theorem registerLoop_clean_spec (env : Env) (cfg : Cfg) (island_id : Option Nat)
    (avg_time : Nat) (hp : cleanProf env) :
    ∀ (l : List (String × Option Int × Nat)) (s : SearchState),
      registerLoop env cfg island_id avg_time l s =
        .ok ⟨s.tot_sample_nums + l.length,
             s.db ++ regsOf env island_id l,
             s.profiler_log ++ (if cfg.profiler_on then repsOf env avg_time l else [])⟩ := by
  intro l
  induction l with
  | nil =>
    intro s
    simp [registerLoop, regsOf, repsOf]
  | cons pst rest ih =>
    intro s
    obtain ⟨program, score, eval_time⟩ := pst
    simp only [registerLoop]
    cases hpf : env.program_to_function program with
    | none =>
      rw [ih]
      simp only [regsOf, repsOf, List.filterMap_cons, hpf]
      cases cfg.profiler_on <;> simp +arith
    | some function =>
      cases hsc : score.isSome
      all_goals cases hprof : cfg.profiler_on
      all_goals simp only [hsc, hprof, if_true, if_false, hp _, ih]
      all_goals simp only [regsOf, repsOf, List.filterMap_cons, hpf, hsc, Option.map_some]
      all_goals simp +arith [List.append_assoc]

theorem registerLoop_ok_tot (env : Env) (cfg : Cfg) (island_id : Option Nat)
    (avg_time : Nat) :
    ∀ (l : List (String × Option Int × Nat)) (s s' : SearchState),
      registerLoop env cfg island_id avg_time l s = .ok s' →
      s'.tot_sample_nums = s.tot_sample_nums + l.length := by
  intro l
  induction l with
  | nil =>
    intro s s' h
    simp [registerLoop] at h
    simp [← h]
  | cons pst rest ih =>
    intro s s' h
    obtain ⟨program, score, eval_time⟩ := pst
    simp only [registerLoop] at h
    split at h
    · have := ih _ _ h
      simp +arith [this]
    · split at h
      · split at h
        · exact absurd h (by simp)
        · have := ih _ _ h
          split at this <;> simp_all +arith
      · have := ih _ _ h
        split at this <;> simp_all +arith

/-- Every score value ever passed to ProgramsDatabase.register_function was
non-null. -/
def dbScoresSome (s : SearchState) : Prop :=
  ∀ e ∈ s.db, e.score.isSome

theorem registerLoop_db_some (env : Env) (cfg : Cfg) (island_id : Option Nat)
    (avg_time : Nat) :
    ∀ (l : List (String × Option Int × Nat)) (s : SearchState),
      dbScoresSome s →
      dbScoresSome (stateOf (registerLoop env cfg island_id avg_time l s)) := by
  intro l
  induction l with
  | nil =>
    intro s hs
    simpa [registerLoop, stateOf] using hs
  | cons pst rest ih =>
    intro s hs
    obtain ⟨program, score, eval_time⟩ := pst
    simp only [registerLoop]
    have hs1 : dbScoresSome { s with tot_sample_nums := s.tot_sample_nums + 1 } := hs
    cases hpf : env.program_to_function program
    · exact ih _ hs1
    · have hs2 : ∀ b, dbScoresSome
          (if score.isSome then
            { tot_sample_nums := s.tot_sample_nums + 1,
              db := s.db ++ [⟨b, island_id, score⟩],
              profiler_log := s.profiler_log }
           else { s with tot_sample_nums := s.tot_sample_nums + 1 }) := by
        intro b
        cases hsc : score.isSome
        · simpa using hs1
        · simp only [if_true]
          intro e he
          simp only [List.mem_append, List.mem_singleton] at he
          rcases he with he | he
          · exact hs e he
          · simp [he, hsc]
      cases cfg.profiler_on
      · simpa using ih _ (by simpa using hs2 _)
      · simp only [if_true]
        cases env.profiler_register ⟨_, score, avg_time, eval_time⟩
        · simpa [stateOf] using hs2 _
        · exact ih _ (by simpa using hs2 _)

theorem batchTriples_eq_map (env : Env) (programs : List String) :
    batchTriples env programs =
      programs.map fun p => (p, env.evaluate p) := by
  unfold batchTriples evalBatch
  induction programs with
  | nil => simp
  | cons p rest ih => simpa using ih

theorem filterMap_filter_isSome (f : String → Option String) (l : List String) :
    l.filterMap f = (l.filter fun t => (f t).isSome).filterMap f
    ∧ (l.filterMap f).length = (l.filter fun t => (f t).isSome).length := by
  induction l with
  | nil => simp
  | cons t rest ih =>
    cases hft : f t <;>
      simp [List.filterMap_cons, List.filter_cons, hft, ih.1, ih.2]

/-- A concrete environment used to instantiate the theorems: the backend
echoes the prompts back, every conversion succeeds, every evaluation returns
score 1 in 2 time units, the profiler always accepts, and the seed evaluates
to score 3. -/
def envBase : Env where
  get_prompt := ⟨"seed", some 0⟩
  draw_samples := fun ps => .ok ps
  draw_duration := 4
  sample_to_program := fun t => some t
  evaluate := fun _ => (some 1, 2)
  program_to_function := fun p => some p
  profiler_register := fun _ => .ok ()
  evaluate_seed := (some 3, 5)
  function_to_evolve := "f"

/-- A concrete configuration: one sampler, one sample per prompt, budget 20,
fresh run, no debug, profiler configured. -/
def cfgBase : Cfg := ⟨1, 1, some 20, false, false, true⟩

/-- The initial shared state: counter zero, empty store, empty telemetry. -/
def state0 : SearchState := ⟨0, [], []⟩

/-- C4: within one worker iteration, batch result collection preserves
submission order — the i-th collected (score, eval_time) entry is the
evaluation of the i-th submitted program, and the zip driving the
registration loop pairs every program with exactly its own evaluation
result. -/
theorem batch_collection_preserves_order (env : Env) (programs : List String) :
    (∀ i : Nat, (evalBatch env programs)[i]? = (programs[i]?).map env.evaluate)
    ∧ batchTriples env programs = programs.map fun p => (p, env.evaluate p) := by
  refine ⟨fun i => ?_, batchTriples_eq_map env programs⟩
  simp [evalBatch]

/-- C2 counterexample: in the source the budget counter is incremented
before the program-to-function conversion is checked, so a sample whose
conversion back to a Function fails still increments the counter: with one
candidate whose program_to_function is none, the iteration ends with
tot_sample_nums = 1, refuting that the counter increases only if conversion
succeeds. -/
theorem budget_counter_iff_conversion_ctrex :
    iterationBody { envBase with program_to_function := fun _ => none }
        cfgBase state0 = .ok ⟨1, [], []⟩
    ∧ ({ envBase with program_to_function := fun _ => none } :
        Env).program_to_function "seed" = none := by
  exact ⟨rfl, rfl⟩

/-- C2 (amended): the budget counter is incremented exactly once per
evaluated program in the batch — whether or not the program's conversion
back to a Function succeeds, and whether or not the sample is registered:
when the iteration finishes normally, the counter has grown by exactly the
number of submitted (hence evaluated) programs. -/
theorem budget_counter_per_evaluated_sample (env : Env) (cfg : Cfg)
    (s s' : SearchState) (ts : List String)
    (hdraw : env.draw_samples
      (List.replicate cfg.samples_per_prompt env.get_prompt.code) = .ok ts)
    (hok : iterationBody env cfg s = .ok s') :
    s'.tot_sample_nums = s.tot_sample_nums + (submittedPrograms env ts).length := by
  simp only [iterationBody, hdraw] at hok
  cases hdiv : pydiv env.draw_duration ts.length with
  | error e => rw [hdiv] at hok; exact absurd hok (by simp)
  | ok avg =>
    rw [hdiv] at hok
    have := registerLoop_ok_tot env cfg env.get_prompt.island_id avg _ _ _ hok
    rw [this, batchTriples_eq_map, List.length_map]

/-- Witness for C2 (amended) at a concrete input: one candidate, one
evaluated program, counter grows from 0 to 1. -/
theorem budget_counter_per_evaluated_sample_witness :
    iterationBody envBase cfgBase state0 = .ok ⟨1, [⟨"seed", some 0, some 1⟩],
      [⟨"seed", some 1, 4, 2⟩]⟩
    ∧ (⟨1, [⟨"seed", some 0, some 1⟩], [⟨"seed", some 1, 4, 2⟩]⟩ :
        SearchState).tot_sample_nums =
      state0.tot_sample_nums + (submittedPrograms envBase ["seed"]).length := by
  refine ⟨rfl, ?_⟩
  exact budget_counter_per_evaluated_sample envBase cfgBase state0 _ ["seed"] rfl rfl

/-- C1: every score passed to ProgramsDatabase.register_function is
non-null — the registration loop preserves this invariant of the store
whatever the iteration's outcome, and the seed registration performed by
run() (the only other register_function call) always passes the non-null
score just obtained from the seed evaluation. -/
theorem registered_scores_nonnull :
    (∀ (env : Env) (cfg : Cfg) (s : SearchState), dbScoresSome s →
        dbScoresSome (stateOf (iterationBody env cfg s)))
    ∧ (∀ (cfg : Cfg) (env : Env) (wt tr : List RunEvent),
        run cfg env wt = .ok tr →
        (∀ e ∈ wt, e.isWorkerAct = true) →
        ∀ fn isl sc, RunEvent.registerSeed fn isl sc ∈ tr → sc.isSome) := by
  constructor
  · intro env cfg s hs
    simp only [iterationBody]
    split
    · simpa [stateOf] using hs
    · split
      · simpa [stateOf] using hs
      · exact registerLoop_db_some env cfg _ _ _ s hs
  · intro cfg env wt tr hrun hwt fn isl sc hmem
    unfold run at hrun
    by_cases hres : cfg.resume_mode
    · simp only [hres, if_true, Except.ok.injEq] at hrun
      subst hrun
      rcases List.mem_append.1 hmem with hmem | hmem
      · rcases List.mem_map.1 hmem with ⟨i, _, hi⟩
        exact absurd hi (by simp)
      · have := hwt _ hmem
        simp [RunEvent.isWorkerAct] at this
    · simp only [hres, if_false, Bool.false_eq_true] at hrun
      rcases hseed : env.evaluate_seed with ⟨sc0, t0⟩
      rw [hseed] at hrun
      cases sc0 with
      | none => exact absurd hrun (by simp)
      | some v =>
        simp only [Except.ok.injEq] at hrun
        subst hrun
        rcases List.mem_append.1 hmem with hmem | h
        · rcases List.mem_append.1 hmem with hmem | h
          · rcases List.mem_append.1 hmem with h | h
            · rcases List.mem_cons.1 h with h | h
              · exact absurd h (by simp)
              · rcases List.mem_cons.1 h with h | h
                · rw [RunEvent.registerSeed.injEq] at h
                  simp [h.2.2]
                · exact absurd h (by simp)
            · split at h <;> simp at h
          · rcases List.mem_map.1 h with ⟨i, _, hi⟩
            exact absurd hi (by simp)
        · have := hwt _ h
          simp [RunEvent.isWorkerAct] at this

/-- Witness for C1 at a concrete input: starting from the empty store, one
iteration of the concrete environment keeps every registered score non-null,
and the seed registration event of a concrete run carries score some 3. -/
theorem registered_scores_nonnull_witness :
    dbScoresSome (stateOf (iterationBody envBase cfgBase state0))
    ∧ ((some 3 : Option Int)).isSome := by
  constructor
  · exact registered_scores_nonnull.1 envBase cfgBase state0
      (by intro e he; simp [state0] at he)
  · rfl

/-- C3: when resume_mode is false and the seed program evaluates to a null
score, run() raises RuntimeError before doing anything else — the emitted
trace is just the seed evaluation, containing no thread start, no
register_function call, no profiler report and no worker action. -/
theorem seed_null_aborts_before_workers (cfg : Cfg) (env : Env)
    (wt : List RunEvent) (hres : cfg.resume_mode = false)
    (hseed : env.evaluate_seed.1 = none) :
    run cfg env wt = .error (.runtimeError, [RunEvent.evalSeed])
    ∧ ∀ e ∈ [RunEvent.evalSeed],
        e.isStartWorker = false ∧ e.isRegisterSeed = false
        ∧ e.isProfileSeed = false ∧ e.isWorkerAct = false := by
  constructor
  · simp only [run, hres, Bool.false_eq_true, if_false]
    rcases h : env.evaluate_seed with ⟨sc, t⟩
    rw [h] at hseed
    cases sc
    · rfl
    · simp at hseed
  · intro e he
    simp only [List.mem_singleton] at he
    subst he
    exact ⟨rfl, rfl, rfl, rfl⟩

/-- Witness for C3 at a concrete input: a fresh-mode run over an environment
whose seed evaluates to a null score aborts with RuntimeError after emitting
only the seed-evaluation event. -/
theorem seed_null_aborts_before_workers_witness :
    run cfgBase { envBase with evaluate_seed := (none, 5) } [] =
      .error (.runtimeError, [RunEvent.evalSeed]) := by
  exact (seed_null_aborts_before_workers cfgBase
    { envBase with evaluate_seed := (none, 5) } [] rfl rfl).1

/-- C6: when resume_mode is false, run() registers the seed function exactly
once, and this registration precedes the start of every sampler thread and
every subsequent worker action: the trace splits into a prefix holding the
single seed registration and no worker starts or worker actions, followed by
the suffix holding all of those. -/
theorem seed_registered_once_before_workers (cfg : Cfg) (env : Env)
    (wt tr : List RunEvent) (hres : cfg.resume_mode = false)
    (hwt : ∀ e ∈ wt, e.isWorkerAct = true)
    (hrun : run cfg env wt = .ok tr) :
    ∃ pre post, tr = pre ++ post
      ∧ pre.countP RunEvent.isRegisterSeed = 1
      ∧ post.countP RunEvent.isRegisterSeed = 0
      ∧ pre.countP RunEvent.isStartWorker = 0
      ∧ pre.countP RunEvent.isWorkerAct = 0 := by
  unfold run at hrun
  simp only [hres, Bool.false_eq_true, if_false] at hrun
  rcases hseed : env.evaluate_seed with ⟨sc, t⟩
  rw [hseed] at hrun
  cases sc with
  | none => exact absurd hrun (by simp)
  | some v =>
    simp only [Except.ok.injEq] at hrun
    refine ⟨[RunEvent.evalSeed,
        RunEvent.registerSeed env.function_to_evolve none (some v)]
        ++ (if cfg.profiler_on then
            [RunEvent.profileSeed env.function_to_evolve (some v) t] else []),
      (List.range cfg.num_samplers).map RunEvent.startWorker ++ wt,
      ?_, ?_, ?_, ?_, ?_⟩
    · rw [← hrun]
      simp [List.append_assoc]
    · cases hp : cfg.profiler_on <;>
        simp [List.countP_append, List.countP_cons, RunEvent.isRegisterSeed]
    · rw [List.countP_append]
      have h1 : ((List.range cfg.num_samplers).map
          RunEvent.startWorker).countP RunEvent.isRegisterSeed = 0 := by
        rw [List.countP_eq_zero]
        intro a ha
        rcases List.mem_map.1 ha with ⟨i, _, hi⟩
        subst hi
        simp [RunEvent.isRegisterSeed]
      have h2 : wt.countP RunEvent.isRegisterSeed = 0 := by
        rw [List.countP_eq_zero]
        intro a ha
        have := hwt _ ha
        cases a <;> simp_all [RunEvent.isWorkerAct, RunEvent.isRegisterSeed]
      rw [h1, h2]
    · cases hp : cfg.profiler_on <;>
        simp [List.countP_append, List.countP_cons, RunEvent.isStartWorker]
    · cases hp : cfg.profiler_on <;>
        simp [List.countP_append, List.countP_cons, RunEvent.isWorkerAct]

/-- Witness for C6 at a concrete input: a fresh-mode run with the concrete
environment and an empty worker trace has exactly one seed registration,
placed before every worker start. -/
theorem seed_registered_once_before_workers_witness :
    ∃ pre post,
      ([RunEvent.evalSeed, RunEvent.registerSeed "f" none (some 3),
        RunEvent.profileSeed "f" (some 3) 5, RunEvent.startWorker 0] :
        List RunEvent) = pre ++ post
      ∧ pre.countP RunEvent.isRegisterSeed = 1
      ∧ post.countP RunEvent.isRegisterSeed = 0
      ∧ pre.countP RunEvent.isStartWorker = 0
      ∧ pre.countP RunEvent.isWorkerAct = 0 := by
  exact seed_registered_once_before_workers cfgBase envBase [] _ rfl
    (by intro e he; simp at he) rfl

/-- C7: a candidate text whose sample_to_program conversion fails is silently
dropped — the list of submitted programs keeps only the successful
conversions (deleting the failing candidates changes nothing), the budget
counter grows only by the number of submitted programs, and the iteration
finishes normally with no error surfaced. -/
theorem conversion_failure_silently_dropped (env : Env) (cfg : Cfg)
    (s : SearchState) (ts : List String)
    (hdraw : env.draw_samples
      (List.replicate cfg.samples_per_prompt env.get_prompt.code) = .ok ts)
    (hne : ts.length ≠ 0) (hp : cleanProf env) :
    (∃ s', iterationBody env cfg s = .ok s'
        ∧ s'.tot_sample_nums =
            s.tot_sample_nums + (submittedPrograms env ts).length)
    ∧ submittedPrograms env ts =
        submittedPrograms env
          (ts.filter fun t => (env.sample_to_program t).isSome)
    ∧ (submittedPrograms env ts).length =
        (ts.filter fun t => (env.sample_to_program t).isSome).length := by
  refine ⟨?_, (filterMap_filter_isSome env.sample_to_program ts).1,
    (filterMap_filter_isSome env.sample_to_program ts).2⟩
  have hbody : iterationBody env cfg s =
      registerLoop env cfg env.get_prompt.island_id
        (env.draw_duration / ts.length)
        (batchTriples env (submittedPrograms env ts)) s := by
    simp [iterationBody, hdraw, pydiv, hne]
  rw [hbody, registerLoop_clean_spec env cfg _ _ hp]
  exact ⟨_, rfl, by simp [batchTriples_eq_map]⟩

/-- An environment in which the candidate text bad fails sample_to_program
conversion and every other candidate converts to itself; the backend returns
one failing and one succeeding candidate. -/
def envConvFail : Env :=
  { envBase with
    draw_samples := fun _ => .ok ["good", "bad"],
    sample_to_program := fun t => if t = "bad" then none else some t }

/-- Witness for C7 at a concrete input: of the two candidates good and bad
only good is submitted, the counter grows by one, and the iteration finishes
normally. -/
theorem conversion_failure_silently_dropped_witness :
    (∃ s', iterationBody envConvFail cfgBase state0 = .ok s'
        ∧ s'.tot_sample_nums = state0.tot_sample_nums +
            (submittedPrograms envConvFail ["good", "bad"]).length)
    ∧ submittedPrograms envConvFail ["good", "bad"] =
        submittedPrograms envConvFail
          (["good", "bad"].filter fun t =>
            (envConvFail.sample_to_program t).isSome)
    ∧ (submittedPrograms envConvFail ["good", "bad"]).length =
        (["good", "bad"].filter fun t =>
          (envConvFail.sample_to_program t).isSome).length := by
  exact conversion_failure_silently_dropped envConvFail cfgBase state0
    ["good", "bad"] rfl (by decide) (fun fr => rfl)

theorem repsOf_length (env : Env) (avg_time : Nat)
    (l : List (String × Option Int × Nat)) :
    (repsOf env avg_time l).length =
      (l.filter fun pst => (env.program_to_function pst.1).isSome).length := by
  induction l with
  | nil => simp [repsOf]
  | cons pst rest ih =>
    simp only [repsOf] at ih
    cases h : env.program_to_function pst.1 <;>
      simp [repsOf, List.filterMap_cons, List.filter_cons, h, ih]

theorem regsOf_filter_score (env : Env) (island_id : Option Nat)
    (l : List (String × Option Int × Nat)) :
    regsOf env island_id l =
      regsOf env island_id (l.filter fun pst => pst.2.1.isSome) := by
  induction l with
  | nil => simp [regsOf]
  | cons pst rest ih =>
    obtain ⟨p, sc, t⟩ := pst
    simp only [regsOf] at ih
    cases h : env.program_to_function p
    all_goals cases hsc : sc.isSome
    all_goals
      simp [regsOf, List.filterMap_cons, List.filter_cons, h, hsc, ih]

/-- C8: when a profiler is configured, every evaluated sample whose
program-to-function conversion succeeds is reported to telemetry with its
score, sample_time and evaluate_time attached — one report per conversion
success, regardless of whether the sample was registered — while the
population store receives only the non-null-score subset: dropping the
null-score samples changes the registrations not at all. -/
theorem conversion_success_reported_regardless (env : Env) (cfg : Cfg)
    (island_id : Option Nat) (avg_time : Nat)
    (l : List (String × Option Int × Nat)) (s : SearchState)
    (hpon : cfg.profiler_on = true) (hp : cleanProf env) :
    ∃ s', registerLoop env cfg island_id avg_time l s = .ok s'
      ∧ s'.profiler_log = s.profiler_log ++ repsOf env avg_time l
      ∧ (repsOf env avg_time l).length =
          (l.filter fun pst => (env.program_to_function pst.1).isSome).length
      ∧ s'.db = s.db ++ regsOf env island_id l
      ∧ regsOf env island_id l =
          regsOf env island_id (l.filter fun pst => pst.2.1.isSome) := by
  rw [registerLoop_clean_spec env cfg island_id avg_time hp]
  exact ⟨_, rfl, by simp [hpon], repsOf_length env avg_time l, rfl,
    regsOf_filter_score env island_id l⟩

/-- An environment in which the program noconv fails the program-to-function
conversion; used to replay the spec scenario of one conversion failure plus
one null-score success. -/
def envNoConv : Env :=
  { envBase with
    program_to_function := fun p => if p = "noconv" then none else some p }

/-- The spec-scenario triple list: one evaluated program that fails
conversion back to a Function, and one that converts but carries a null
score. -/
def scenarioTriples : List (String × Option Int × Nat) :=
  [("noconv", some 1, 2), ("ok", none, 3)]

/-- Witness for C8 at the spec scenario: the conversion failure yields no
report and no registration, the null-score success yields exactly one
telemetry report carrying score none and no registration. -/
theorem conversion_success_reported_regardless_witness :
    (∃ s', registerLoop envNoConv cfgBase (some 0) 4 scenarioTriples state0 =
        .ok s'
      ∧ s'.profiler_log =
          state0.profiler_log ++ repsOf envNoConv 4 scenarioTriples
      ∧ (repsOf envNoConv 4 scenarioTriples).length =
          (scenarioTriples.filter fun pst =>
            (envNoConv.program_to_function pst.1).isSome).length
      ∧ s'.db = state0.db ++ regsOf envNoConv (some 0) scenarioTriples
      ∧ regsOf envNoConv (some 0) scenarioTriples =
          regsOf envNoConv (some 0)
            (scenarioTriples.filter fun pst => pst.2.1.isSome))
    ∧ repsOf envNoConv 4 scenarioTriples = [⟨"ok", none, 4, 3⟩]
    ∧ regsOf envNoConv (some 0) scenarioTriples = [] := by
  refine ⟨?_, rfl, rfl⟩
  exact conversion_success_reported_regardless envNoConv cfgBase (some 0) 4
    scenarioTriples state0 rfl (fun fr => rfl)

/-- C9: an unexpected exception inside a worker iteration (anything other
than KeyboardInterrupt) terminates the process after diagnostics when
debug_mode is true, and is swallowed when debug_mode is false, the worker
continuing with exactly the partial state the iteration had already built —
no increment or registration performed before the raise is rolled back. -/
theorem unexpected_exception_policy (env : Env) (cfg : Cfg)
    (s sp : SearchState) (e : PyErr)
    (hbody : iterationBody env cfg s = .error (e, sp))
    (hne : e ≠ .keyboardInterrupt) :
    (cfg.debug_mode = true → workerIteration env cfg s = .exited sp)
    ∧ (cfg.debug_mode = false → workerIteration env cfg s = .continued sp) := by
  unfold workerIteration
  rw [hbody]
  cases e
  · exact absurd rfl hne
  all_goals exact ⟨fun h => by simp [handleIteration, h],
    fun h => by simp [handleIteration, h]⟩

/-- An environment whose profiler raises on the report for function g: the
iteration registers f, registers g, then raises inside the telemetry call
for g, leaving two increments and two registrations in place. -/
def envProfRaise : Env :=
  { envBase with
    draw_samples := fun _ => .ok ["f", "g"],
    profiler_register := fun fr =>
      if fr.function = "g" then .error .other else .ok () }

/-- The partial state at the moment the profiler raises in envProfRaise:
two counter increments, both registrations, and the one successful report. -/
def stateProfRaise : SearchState :=
  ⟨2, [⟨"f", some 0, some 1⟩, ⟨"g", some 0, some 1⟩], [⟨"f", some 1, 2, 2⟩]⟩

/-- Witness for C9 at a concrete input: a mid-loop telemetry exception in
non-debug mode is swallowed and the worker continues with both prior
registrations and both counter increments intact. -/
theorem unexpected_exception_policy_witness :
    iterationBody envProfRaise cfgBase state0 = .error (.other, stateProfRaise)
    ∧ workerIteration envProfRaise cfgBase state0 = .continued stateProfRaise
    ∧ stateProfRaise.tot_sample_nums = 2 ∧ stateProfRaise.db.length = 2 := by
  refine ⟨rfl, ?_, rfl, rfl⟩
  exact (unexpected_exception_policy envProfRaise cfgBase state0 stateProfRaise
    .other rfl (by decide)).2 rfl

/-- C10: when the sampling backend returns an empty candidate list, the
per-sample average-time computation divides by zero, so the iteration raises
ZeroDivisionError with the state untouched; the handler then exits the
process in debug mode and otherwise skips to the next iteration, leaving the
budget counter and the population store unchanged. -/
theorem empty_batch_division_by_zero (env : Env) (cfg : Cfg) (s : SearchState)
    (hdraw : env.draw_samples
      (List.replicate cfg.samples_per_prompt env.get_prompt.code) = .ok []) :
    iterationBody env cfg s = .error (.zeroDivisionError, s)
    ∧ (cfg.debug_mode = true → workerIteration env cfg s = .exited s)
    ∧ (cfg.debug_mode = false → workerIteration env cfg s = .continued s) := by
  have hbody : iterationBody env cfg s = .error (.zeroDivisionError, s) := by
    simp [iterationBody, hdraw, pydiv]
  refine ⟨hbody, fun h => ?_, fun h => ?_⟩ <;>
    simp [workerIteration, hbody, handleIteration, h]

/-- An environment whose backend returns an empty batch. -/
def envEmptyBatch : Env :=
  { envBase with draw_samples := fun _ => .ok [] }

/-- The shared state of the budget-counter protocol run by the n sampler
workers: the counter self._tot_sample_nums, and for each worker the number
of evaluated samples of its current iteration whose counter increments have
not yet been applied. -/
structure SysState (n : Nat) where
  counter : Nat
  pending : Fin n → Nat

/-- The initial system state: counter zero, no worker mid-iteration. -/
def sysInit (n : Nat) : SysState n := ⟨0, fun _ => 0⟩

/-- The budget-counter protocol of _sample_evaluate_register, interleaved
over n workers.  A start step is one worker passing the while-guard
(tot_sample_nums < max_sample_nums, checked once at the top of the
iteration) while idle, drawing samples_per_prompt candidate texts and
converting them: the conversion successes become pending increments.  A tick
step applies one pending increment (one pass of the registration loop).  A
cancel step is an iteration aborted by a swallowed exception, whose
remaining increments never happen. -/
inductive BudgetStep (s2p : String → Option String) (spp m n : Nat) :
    SysState n → SysState n → Prop
  | start (w : Fin n) (texts : List String) (s : SysState n)
      (hlt : s.counter < m) (hidle : s.pending w = 0)
      (hlen : texts.length = spp) :
      BudgetStep s2p spp m n s
        ⟨s.counter, Function.update s.pending w (texts.filterMap s2p).length⟩
  | tick (w : Fin n) (s : SysState n) (hpos : 0 < s.pending w) :
      BudgetStep s2p spp m n s
        ⟨s.counter + 1, Function.update s.pending w (s.pending w - 1)⟩
  | cancel (w : Fin n) (s : SysState n) (hpos : 0 < s.pending w) :
      BudgetStep s2p spp m n s
        ⟨s.counter, Function.update s.pending w 0⟩

/-- Reachability of the budget-counter protocol from the initial state. -/
def BudgetReachable (s2p : String → Option String) (spp m n : Nat)
    (s : SysState n) : Prop :=
  Relation.ReflTransGen (BudgetStep s2p spp m n) (sysInit n) s

/-- Total pending increments over all workers. -/
def pendSum {n : Nat} (p : Fin n → Nat) : Nat := ∑ w, p w

/-- The protocol invariant: no worker ever holds more than
samples_per_prompt pending increments, and the counter plus all pending
increments stays below max_sample_nums + n * samples_per_prompt. -/
def BudgetInv (spp m n : Nat) (s : SysState n) : Prop :=
  (∀ w, s.pending w ≤ spp) ∧ s.counter + pendSum s.pending < m + n * spp

theorem budget_inv_init (spp m n : Nat) (hn : 1 ≤ n) (hspp : 1 ≤ spp) :
    BudgetInv spp m n (sysInit n) := by
  constructor
  · intro w
    simp [sysInit]
  · have h1 : 1 ≤ n * spp := by
      calc 1 = 1 * 1 := rfl
        _ ≤ n * spp := Nat.mul_le_mul hn hspp
    simp only [sysInit, pendSum, Finset.sum_const_zero, Nat.add_zero]
    omega

theorem budget_inv_step (s2p : String → Option String) (spp m n : Nat)
    {s s' : SysState n} (hstep : BudgetStep s2p spp m n s s')
    (hinv : BudgetInv spp m n s) : BudgetInv spp m n s' := by
  obtain ⟨hbd, hsum⟩ := hinv
  cases hstep with
  | start w texts s hlt hidle hlen =>
    have hk : (texts.filterMap s2p).length ≤ spp := by
      rw [← hlen]
      exact List.length_filterMap_le _ _
    constructor
    · intro x
      by_cases hx : x = w
      · subst hx
        simpa [Function.update_same] using hk
      · simpa [Function.update_noteq hx] using hbd x
    · have hupd : pendSum (Function.update s.pending w
          (texts.filterMap s2p).length) =
          (texts.filterMap s2p).length +
            ∑ x ∈ Finset.univ.erase w, s.pending x := by
        simp [pendSum, Finset.sum_update_of_mem (Finset.mem_univ w),
          Finset.sdiff_singleton_eq_erase]
      have herase : ∑ x ∈ Finset.univ.erase w, s.pending x ≤ (n - 1) * spp := by
        calc ∑ x ∈ Finset.univ.erase w, s.pending x
            ≤ (Finset.univ.erase w).card • spp :=
              Finset.sum_le_card_nsmul _ _ _ (fun x _ => hbd x)
          _ = (n - 1) * spp := by
              rw [smul_eq_mul, Finset.card_erase_of_mem (Finset.mem_univ w),
                Finset.card_univ, Fintype.card_fin]
      have hsplit : (n - 1) * spp + spp = n * spp := by
        calc (n - 1) * spp + spp = ((n - 1) + 1) * spp := by ring
          _ = n * spp := by rw [Nat.sub_add_cancel (Fin.pos w)]
      simp only [hupd]
      omega
  | tick w s hpos =>
    constructor
    · intro x
      by_cases hx : x = w
      · subst hx
        simp only [Function.update_same]
        exact le_trans (Nat.sub_le _ _) (hbd x)
      · simpa [Function.update_noteq hx] using hbd x
    · have hupd : pendSum (Function.update s.pending w (s.pending w - 1)) =
          (s.pending w - 1) + ∑ x ∈ Finset.univ.erase w, s.pending x := by
        simp [pendSum, Finset.sum_update_of_mem (Finset.mem_univ w),
          Finset.sdiff_singleton_eq_erase]
      have hold : s.pending w + ∑ x ∈ Finset.univ.erase w, s.pending x =
          pendSum s.pending := by
        simp [pendSum, Finset.add_sum_erase _ _ (Finset.mem_univ w)]
      simp only [hupd]
      omega
  | cancel w s hpos =>
    constructor
    · intro x
      by_cases hx : x = w
      · subst hx
        simp [Function.update_same]
      · simpa [Function.update_noteq hx] using hbd x
    · have hupd : pendSum (Function.update s.pending w 0) =
          0 + ∑ x ∈ Finset.univ.erase w, s.pending x := by
        simp [pendSum, Finset.sum_update_of_mem (Finset.mem_univ w),
          Finset.sdiff_singleton_eq_erase]
      have hold : s.pending w + ∑ x ∈ Finset.univ.erase w, s.pending x =
          pendSum s.pending := by
        simp [pendSum, Finset.add_sum_erase _ _ (Finset.mem_univ w)]
      simp only [hupd]
      omega

theorem budget_inv_reachable (s2p : String → Option String) (spp m n : Nat)
    (hn : 1 ≤ n) (hspp : 1 ≤ spp) (s : SysState n)
    (h : BudgetReachable s2p spp m n s) : BudgetInv spp m n s := by
  induction h with
  | refl => exact budget_inv_init spp m n hn hspp
  | tail hsteps hstep ih => exact budget_inv_step s2p spp m n hstep ih

/-- C5: in a completed, uninterrupted run with max_sample_nums set to m, the
final budget counter is at least m and strictly below
m + num_samplers * samples_per_prompt: a state of the interleaved protocol
that is reachable and has no enabled step (every worker's guard check fails
and no increments remain) satisfies both bounds. -/
theorem budget_final_bounds (s2p : String → Option String) (spp m n : Nat)
    (hn : 1 ≤ n) (hspp : 1 ≤ spp) (s : SysState n)
    (hreach : BudgetReachable s2p spp m n s)
    (hstuck : ∀ s', ¬ BudgetStep s2p spp m n s s') :
    m ≤ s.counter ∧ s.counter < m + n * spp := by
  have hidle : ∀ w, s.pending w = 0 := by
    intro w
    by_contra hw
    exact hstuck _ (BudgetStep.tick w s (Nat.pos_of_ne_zero hw))
  have hge : m ≤ s.counter := by
    by_contra hlt
    push_neg at hlt
    exact hstuck _ (BudgetStep.start ⟨0, hn⟩ (List.replicate spp "") s hlt
      (hidle _) (by simp))
  refine ⟨hge, ?_⟩
  have hinv := budget_inv_reachable s2p spp m n hn hspp s hreach
  have hz : pendSum s.pending = 0 := by
    simp only [pendSum]
    exact Finset.sum_eq_zero fun w _ => hidle w
  have h2 := hinv.2
  rw [hz] at h2
  omega

/-- The final state of a tiny completed run: one worker, one sample per
prompt, ceiling one; the single sample was drawn, converted and counted. -/
def sysDone : SysState 1 := ⟨1, fun _ => 0⟩

/-- The intermediate state of the tiny run: the single worker has passed the
guard and holds one pending increment. -/
def sysMid : SysState 1 := ⟨0, fun _ => 1⟩

theorem sysDone_reachable :
    BudgetReachable (fun t => some t) 1 1 1 sysDone := by
  have h1 : BudgetStep (fun t => some t) 1 1 1 (sysInit 1) sysMid := by
    have h := @BudgetStep.start (fun t => some t) 1 1 1
      (0 : Fin 1) [""] (sysInit 1) (by simp [sysInit]) rfl rfl
    have heq : (⟨(sysInit 1).counter, Function.update (sysInit 1).pending 0
        (([""].filterMap (fun t => some t)).length)⟩ : SysState 1) = sysMid := by
      simp only [sysMid, sysInit, SysState.mk.injEq]
      refine ⟨trivial, ?_⟩
      funext x
      rw [Fin.eq_zero x]
      rfl
    rw [heq] at h
    exact h
  have h2 : BudgetStep (fun t => some t) 1 1 1 sysMid sysDone := by
    have h := @BudgetStep.tick (fun t => some t) 1 1 1
      (0 : Fin 1) sysMid (by simp [sysMid])
    have heq : (⟨sysMid.counter + 1, Function.update sysMid.pending 0
        (sysMid.pending 0 - 1)⟩ : SysState 1) = sysDone := by
      simp only [sysDone, sysMid, SysState.mk.injEq]
      refine ⟨trivial, ?_⟩
      funext x
      rw [Fin.eq_zero x]
      rfl
    rw [heq] at h
    exact h
  exact (Relation.ReflTransGen.refl.tail h1).tail h2

theorem sysDone_stuck :
    ∀ s', ¬ BudgetStep (fun t => some t) 1 1 1 sysDone s' := by
  intro s' h
  cases h with
  | start w texts s hlt hidle hlen => simp [sysDone] at hlt
  | tick w s hpos => simp [sysDone] at hpos
  | cancel w s hpos => simp [sysDone] at hpos

/-- Witness for C5 at a concrete input: the tiny completed run ends with the
counter equal to 1, within the claimed bounds for m = 1, one worker, one
sample per prompt. -/
theorem budget_final_bounds_witness :
    1 ≤ sysDone.counter ∧ sysDone.counter < 1 + 1 * 1 :=
  budget_final_bounds (fun t => some t) 1 1 1 (le_refl 1) (le_refl 1) sysDone
    sysDone_reachable sysDone_stuck

/-- Witness for C10 at a concrete input: the empty batch raises
ZeroDivisionError and the non-debug worker continues with the state it
started the iteration with. -/
theorem empty_batch_division_by_zero_witness :
    iterationBody envEmptyBatch cfgBase state0 =
      .error (.zeroDivisionError, state0)
    ∧ workerIteration envEmptyBatch cfgBase state0 = .continued state0 := by
  refine ⟨(empty_batch_division_by_zero envEmptyBatch cfgBase state0 rfl).1, ?_⟩
  exact (empty_batch_division_by_zero envEmptyBatch cfgBase state0 rfl).2.2 rfl
